import Mathlib

/-!
Verification of the GithubChat ingestion-and-context-extraction pipeline.

The Python sources (data_pipeline.py, data_base_manager.py) are embedded
shallowly: strings are `List Char`, the external adalflow `LocalDB` and the
filesystem are explicit state, and Python exceptions are `Except` values.
-/

namespace GithubChat

/-- Coerce a Lean string literal to the `List Char` representation used
throughout the embedding. -/
def lc (s : String) : List Char := s.data

/-- Python `str` whitespace as used by `str.strip()` / `str.lstrip()` /
`str.split()` (ASCII range). -/
def pyIsSpace (c : Char) : Bool :=
  c = ' ' || c = '\t' || c = '\n' || c = '\r' ||
  c = Char.ofNat 11 || c = Char.ofNat 12

/-- `len(line) - len(line.lstrip())`: the leading-whitespace width. -/
def indentOf (l : List Char) : Nat := (l.takeWhile pyIsSpace).length

/-- `not line.strip()`: a line is blank iff it is all whitespace. -/
def isBlank (l : List Char) : Bool := l.all pyIsSpace

/-- `p.isPrefix s`-style check: does `s` start with `pat`? -/
def startsWithL : List Char → List Char → Bool
  | [], _ => true
  | _ :: _, [] => false
  | p :: ps, c :: cs => p = c && startsWithL ps cs

/-- Python `pat in s`: substring containment. -/
def containsSub (pat : List Char) : List Char → Bool
  | [] => startsWithL pat []
  | c :: cs => startsWithL pat (c :: cs) || containsSub pat cs

/-- Python `content.split('\n')` (never returns an empty list; a trailing
newline yields a trailing empty line). -/
def splitLines : List Char → List (List Char)
  | [] => [[]]
  | c :: cs =>
    if c = '\n' then [] :: splitLines cs
    else
      match splitLines cs with
      | [] => [[c]]
      | l :: ls => (c :: l) :: ls

/-- Python `'\n'.join(lines)`. -/
def joinLines : List (List Char) → List Char
  | [] => []
  | [l] => l
  | l :: l2 :: ls => l ++ '\n' :: joinLines (l2 :: ls)

/-- The log events emitted by the embedded functions (one constructor per
logging call site the claims refer to). -/
inductive LogEvent where
  | warnClassNotFound (name : List Char)
  | infoExtracted (name : List Char)
  | infoDbLoaded
  | warnLoadFailed
  | infoDbNotFound
  deriving DecidableEq, Repr

/-- The scan in `extract_class_definition` for the first line containing
`"class " + class_name`; returns that line and the lines after it. -/
def findClassLine (needle : List Char) : List (List Char) →
    Option (List Char × List (List Char))
  | [] => none
  | l :: ls => if containsSub needle l then some (l, ls) else findClassLine needle ls

/-- The `while` loop of `extract_class_definition`: collect lines until a
non-blank line with indentation `<= indentLevel` is hit (that line excluded). -/
def collectBody (indentLevel : Nat) : List (List Char) → List (List Char)
  | [] => []
  | l :: ls =>
    if isBlank l = false ∧ indentOf l ≤ indentLevel then []
    else l :: collectBody indentLevel ls

/-- `data_pipeline.extract_class_definition`: returns the extracted text
together with the log events it emits. -/
def extract_class_definition (content : List Char) (class_name : List Char) :
    List Char × List LogEvent :=
  let lines := splitLines content
  match findClassLine (lc "class " ++ class_name) lines with
  | none => (content, [LogEvent.warnClassNotFound class_name])
  | some (classLine, rest) =>
    let indentLevel := indentOf classLine
    let classBody := collectBody indentLevel rest
    (joinLines (classLine :: classBody), [LogEvent.infoExtracted class_name])

example :
    (extract_class_definition (lc "class A:\n  x\n\ny") (lc "A")).1 =
      lc "class A:\n  x\n" := by decide

example :
    (extract_class_definition (lc "no such thing") (lc "A")).1 =
      lc "no such thing" := by decide

/-- Python `\w` on ASCII input: letters, digits and underscore. -/
def isWordChar (c : Char) : Bool := c.isAlphanum || c = '_'

/-- Case-insensitive literal match at the front of `s` (`re.IGNORECASE`). -/
def startsWithCI : List Char → List Char → Bool
  | [], _ => true
  | _ :: _, [] => false
  | p :: ps, c :: cs => p.toLower = c.toLower && startsWithCI ps cs

/-- Attempt one of the query patterns (`literal-prefix (\w+) literal-suffix`)
at the current position: the prefix must match case-insensitively, then a
non-empty maximal `\w+` run is captured, then the suffix must follow.  All
six patterns of `extract_class_name_from_query` have this shape, and their
suffixes are empty or start with a space, so the greedy capture never
backtracks. -/
def tryPatternAt (pre suf : List Char) (s : List Char) : Option (List Char) :=
  if startsWithCI pre s then
    let afterPre := s.drop pre.length
    let w := afterPre.takeWhile isWordChar
    if w ≠ [] && startsWithCI suf (afterPre.drop w.length) then some w else none
  else none

/-- `re.findall(pattern, query, re.IGNORECASE)[0]`: the capture of the
leftmost match, scanning every start position. -/
def findFirstMatch (pre suf : List Char) : List Char → Option (List Char)
  | [] => tryPatternAt pre suf []
  | c :: cs =>
    match tryPatternAt pre suf (c :: cs) with
    | some w => some w
    | none => findFirstMatch pre suf cs

/-- The fixed-priority cue-phrase patterns of `extract_class_name_from_query`,
each as (literal prefix, literal suffix) around the `(\w+)` capture. -/
def patternList : List (List Char × List Char) :=
  [(lc "class ", lc ""),
   (lc "the ", lc " class"),
   (lc "what does ", lc " do"),
   (lc "how does ", lc " work"),
   (lc "show me ", lc ""),
   (lc "explain ", lc "")]

/-- The `for pattern in patterns` loop: first pattern with a match wins. -/
def findSomePattern : List (List Char × List Char) → List Char → Option (List Char)
  | [], _ => none
  | (pre, suf) :: ps, q =>
    match findFirstMatch pre suf q with
    | some w => some w
    | none => findSomePattern ps q

/-- Python `str.capitalize()`: first character upper-cased, the rest
lower-cased. -/
def pyCapitalize : List Char → List Char
  | [] => []
  | c :: cs => c.toUpper :: cs.map Char.toLower

/-- Python `str.lower()`. -/
def toLowerL (l : List Char) : List Char := l.map Char.toLower

/-- The stop-word set used by the capitalized-word fallback. -/
def common_words : List (List Char) :=
  [lc "the", lc "class", lc "show", lc "me", lc "how", lc "does", lc "what",
   lc "is", lc "are", lc "explain", lc "a", lc "an", lc "to", lc "in", lc "and",
   lc "or", lc "on", lc "with", lc "for", lc "of", lc "by", lc "at"]

/-- Python `query.split()`: split on whitespace runs, dropping empty words
(accumulator holds the current word reversed). -/
def pySplitAux : List Char → List Char → List (List Char)
  | [], acc => if acc = [] then [] else [acc.reverse]
  | c :: cs, acc =>
    if pyIsSpace c then
      if acc = [] then pySplitAux cs [] else acc.reverse :: pySplitAux cs []
    else pySplitAux cs (c :: acc)

def pySplit (s : List Char) : List (List Char) := pySplitAux s []

/-- The fallback loop: first whitespace-separated token whose first character
is upper-case and whose lower-casing is not a stop word. -/
def fallbackScan : List (List Char) → Option (List Char)
  | [] => none
  | w :: ws =>
    match w with
    | [] => fallbackScan ws
    | c :: _ =>
      if c.isUpper && !(common_words.contains (toLowerL w)) then some w
      else fallbackScan ws

/-- `data_pipeline.extract_class_name_from_query`: cue-phrase patterns first
(capture capitalized via `str.capitalize`), then the capitalized-word
fallback, else `None`. -/
def extract_class_name_from_query (query : List Char) : Option (List Char) :=
  match findSomePattern patternList query with
  | some w => some (pyCapitalize w)
  | none => fallbackScan (pySplit query)

example : extract_class_name_from_query (lc "what does memory do") =
    some (lc "Memory") := by decide

example : extract_class_name_from_query (lc "tell me about memory") = none := by
  decide

example : extract_class_name_from_query (lc "explain the RetryPolicy class") =
    some (lc "Retrypolicy") := by decide

example : extract_class_name_from_query (lc "run Foo now") =
    some (lc "Foo") := by decide

example : extract_class_name_from_query (lc "classy foo") = none := by decide

example : extract_class_name_from_query (lc "THE Ab CLASS") =
    some (lc "Ab") := by decide

example : extract_class_name_from_query (lc "Xclass the Yclass class") =
    some (lc "The") := by decide

example : extract_class_name_from_query (lc "what does a_b do stuff") =
    some (lc "A_b") := by decide

example : extract_class_name_from_query (lc "show me HTTPServer") =
    some (lc "Httpserver") := by decide

/-- An adalflow `Document` as built by `documents_to_adal_documents`: the
meta_data fields are inlined (`dtype` stands for the `"type"` key). -/
structure AdalDocument where
  text : List Char
  file_path : List Char
  dtype : List Char
  is_code : Bool
  is_implementation : Bool
  title : List Char
  deriving DecidableEq, Repr

/-- One file found by `glob.glob`: its absolute path, its path relative to
the scanned root (`os.path.relpath(file_path, path)`), and its content —
`none` when `open`/`read` raises, in which case the file is skipped. -/
structure SrcFile where
  fullPath : List Char
  relPath : List Char
  content : Option (List Char)
  deriving DecidableEq, Repr

def code_extensions : List (List Char) :=
  [lc ".py", lc ".js", lc ".ts", lc ".java", lc ".cpp", lc ".c", lc ".go", lc ".rs"]

def doc_extensions : List (List Char) :=
  [lc ".md", lc ".txt", lc ".rst", lc ".json", lc ".yaml", lc ".yml"]

/-- The per-extension inner loop of `documents_to_adal_documents`: skip
`.venv`/`node_modules` paths and unreadable files; tag code files with the
`is_implementation` predicate, documentation files with both flags false. -/
def processFiles (isCodePass : Bool) (ext : List Char) (files : List SrcFile) :
    List AdalDocument :=
  files.filterMap fun f =>
    if containsSub (lc ".venv") f.fullPath || containsSub (lc "node_modules") f.fullPath then
      none
    else
      match f.content with
      | none => none
      | some content =>
        if isCodePass then
          some { text := content
                 file_path := f.relPath
                 dtype := ext.drop 1
                 is_code := true
                 is_implementation :=
                   !(startsWithL (lc "test_") f.relPath) &&
                   !(startsWithL (lc "app_") f.relPath) &&
                   !(containsSub (lc "test") (toLowerL f.relPath))
                 title := f.relPath }
        else
          some { text := content
                 file_path := f.relPath
                 dtype := ext.drop 1
                 is_code := false
                 is_implementation := false
                 title := f.relPath }

/-- `data_pipeline.documents_to_adal_documents`, over an abstract filesystem:
`glob ext` is the list of files `glob.glob` returns for extension `ext`.
Code extensions are processed first, then documentation extensions. -/
def documents_to_adal_documents (glob : List Char → List SrcFile) :
    List AdalDocument :=
  (code_extensions.flatMap fun ext => processFiles true ext (glob ext)) ++
  (doc_extensions.flatMap fun ext => processFiles false ext (glob ext))

/-- A Python exception as observed by `download_github_repo`. -/
inductive PyExc where
  | calledProcessError (stderr : List Char)
  | other (msg : List Char)
  deriving DecidableEq, Repr

/-- The body of `download_github_repo`'s `try` block: the git-version check,
`os.makedirs`, and the clone, each an external effect whose outcome is
supplied by the environment; the first raised exception aborts the body. -/
def download_github_repo_body (gitVersion : Except PyExc Unit)
    (makedirs : Except PyExc Unit) (clone : Except PyExc (List Char)) :
    Except PyExc (List Char) :=
  match gitVersion with
  | .error e => .error e
  | .ok _ =>
    match makedirs with
    | .error e => .error e
    | .ok _ =>
      match clone with
      | .error e => .error e
      | .ok stdout => .ok stdout

/-- `data_pipeline.download_github_repo`: the `try`/`except` wrapper turns
every exception into a returned error-message string. -/
def download_github_repo (gitVersion : Except PyExc Unit)
    (makedirs : Except PyExc Unit) (clone : Except PyExc (List Char)) :
    Except PyExc (List Char) :=
  match download_github_repo_body gitVersion makedirs clone with
  | .ok stdout => .ok stdout
  | .error (.calledProcessError stderr) => .ok (lc "Error during cloning: " ++ stderr)
  | .error (.other msg) => .ok (lc "An unexpected error occurred: " ++ msg)

/-- The state of an adalflow `LocalDB` as far as `DatabaseManager` drives it:
the registered transformer key, the loaded documents, and the transformed
items (`none` until `transform` has run). -/
structure LocalDBState where
  transformerKey : Option (List Char)
  documents : List AdalDocument
  transformed : Option (List AdalDocument)
  deriving DecidableEq, Repr

/-- `LocalDB("code_db")`: a fresh empty database. -/
def freshLocalDB : LocalDBState :=
  { transformerKey := none, documents := [], transformed := none }

/-- What is stored at `db_file_path`: a pickle that loads back to a database
state, or bytes `LocalDB.load_state` fails on. -/
inductive CacheContent where
  | valid (db : LocalDBState)
  | corrupt
  deriving DecidableEq, Repr

/-- The filesystem as `DatabaseManager` sees it: the content at
`db_file_path`, `none` when the file does not exist. -/
structure World where
  cacheFile : Option CacheContent
  deriving DecidableEq, Repr

/-- `DatabaseManager.load_database` during `load_or_create_db`:
`LocalDB.load_state(filepath=db_file_path)` returns the pickled state or
raises (re-raised by `load_database` after logging). -/
def load_database (w : World) : Except Unit LocalDBState :=
  match w.cacheFile with
  | some (.valid db) => .ok db
  | some .corrupt => .error ()
  | none => .error ()

/-- The externally visible effects of the `DatabaseManager` methods that the
cache claims talk about. -/
inductive DbAction where
  | loadAction
  | createAction
  | transformAction
  deriving DecidableEq, Repr

/-- The result of `load_or_create_db`: the database held in `self.db`, the
returned needs-rebuild flag, the actions performed and the logs emitted. -/
structure LoadResult where
  db : LocalDBState
  needs_rebuild : Bool
  actions : List DbAction
  logs : List LogEvent
  deriving DecidableEq, Repr

/-- `DatabaseManager.load_or_create_db`: if the cache file exists, try to
load it (returning `False`); on load failure log a warning and fall through;
in both remaining cases create a fresh database and return `True`. -/
def load_or_create_db (w : World) : LoadResult :=
  if w.cacheFile.isSome then
    match load_database w with
    | .ok db =>
      { db := db, needs_rebuild := false, actions := [.loadAction],
        logs := [LogEvent.infoDbLoaded] }
    | .error _ =>
      { db := freshLocalDB, needs_rebuild := true,
        actions := [.loadAction, .createAction], logs := [LogEvent.warnLoadFailed] }
  else
    { db := freshLocalDB, needs_rebuild := true, actions := [.createAction],
      logs := [LogEvent.infoDbNotFound] }

/-- The four externally effectful steps of `transform_documents_and_save`,
in the order the method performs them. -/
inductive StepId where
  | registerStep
  | loadStep
  | transformStep
  | saveStep
  deriving DecidableEq, Repr

/-- `DatabaseManager.transform_documents_and_save`.  `ok` tells which
external calls succeed, `pipe` is the registered transformer pipeline.
The steps run in order inside a `try` block; the first failing step raises,
the handler logs and re-raises, so the result carries the raised step (or
`none` on success).  Only `save_state` touches the filesystem. -/
def transform_documents_and_save (ok : StepId → Bool)
    (pipe : List AdalDocument → List AdalDocument)
    (documents : List AdalDocument) (db : LocalDBState) (w : World) :
    LocalDBState × World × Option StepId :=
  if ok .registerStep then
    let db1 := { db with transformerKey := some (lc "split_and_embed") }
    if ok .loadStep then
      let db2 := { db1 with documents := documents }
      if ok .transformStep then
        let db3 := { db2 with transformed := some (pipe db2.documents) }
        if ok .saveStep then
          (db3, { w with cacheFile := some (.valid db3) }, none)
        else (db3, w, some .saveStep)
      else (db2, w, some .transformStep)
    else (db1, w, some .loadStep)
  else (db, w, some .registerStep)

example :
    (transform_documents_and_save (fun _ => true) id [] freshLocalDB
      ⟨none⟩).2.2 = none := by decide

example :
    (transform_documents_and_save (fun s => s ≠ .transformStep) id []
      freshLocalDB ⟨none⟩).2.1.cacheFile = none := by decide

theorem startsWithL_append_left {p q s : List Char}
    (h : startsWithL (p ++ q) s = true) : startsWithL p s = true := by
  induction p generalizing s with
  | nil => rfl
  | cons a ps ih =>
    cases s with
    | nil => simp [startsWithL] at h
    | cons c cs =>
      simp only [List.cons_append, startsWithL, Bool.and_eq_true] at h ⊢
      exact ⟨h.1, ih h.2⟩

theorem containsSub_append_left {p q s : List Char}
    (h : containsSub (p ++ q) s = true) : containsSub p s = true := by
  induction s with
  | nil =>
    simp only [containsSub] at h ⊢
    exact startsWithL_append_left h
  | cons c cs ih =>
    simp only [containsSub, Bool.or_eq_true] at h ⊢
    rcases h with h | h
    · exact Or.inl (startsWithL_append_left h)
    · exact Or.inr (ih h)

theorem splitLines_ne_nil (s : List Char) : splitLines s ≠ [] := by
  induction s with
  | nil => simp [splitLines]
  | cons c cs ih =>
    simp only [splitLines]
    split
    · simp
    · cases h : splitLines cs with
      | nil => simp
      | cons l ls => simp

theorem mem_splitLines_no_newline {s l : List Char}
    (h : l ∈ splitLines s) : '\n' ∉ l := by
  induction s generalizing l with
  | nil =>
    simp only [splitLines, List.mem_singleton] at h
    subst h; simp
  | cons c cs ih =>
    simp only [splitLines] at h
    by_cases hc : c = '\n'
    · rw [if_pos hc] at h
      rcases List.mem_cons.mp h with h1 | h2
      · subst h1; simp
      · exact ih h2
    · rw [if_neg hc] at h
      cases hsp : splitLines cs with
      | nil => exact absurd hsp (splitLines_ne_nil cs)
      | cons l0 ls =>
        rw [hsp] at h
        rcases List.mem_cons.mp h with h1 | h2
        · subst h1
          intro hmem
          rcases List.mem_cons.mp hmem with h3 | h4
          · exact hc h3.symm
          · exact ih (l := l0) (by rw [hsp]; exact List.mem_cons_self _ _) h4
        · exact ih (by rw [hsp]; exact List.mem_cons_of_mem _ h2)

theorem splitLines_of_no_newline {l : List Char} (h : '\n' ∉ l) :
    splitLines l = [l] := by
  induction l with
  | nil => rfl
  | cons c cs ih =>
    have hc : ¬(c = '\n') := fun hc => h (by simp [hc])
    have hcs : '\n' ∉ cs := fun hm => h (List.mem_cons_of_mem _ hm)
    simp only [splitLines, if_neg hc, ih hcs]

theorem splitLines_append_newline {l : List Char} (t : List Char)
    (h : '\n' ∉ l) : splitLines (l ++ '\n' :: t) = l :: splitLines t := by
  induction l with
  | nil => simp [splitLines]
  | cons c cs ih =>
    have hc : ¬(c = '\n') := fun hc => h (by simp [hc])
    have hcs : '\n' ∉ cs := fun hm => h (List.mem_cons_of_mem _ hm)
    simp only [List.cons_append, splitLines, if_neg hc, List.append_eq, ih hcs]

theorem splitLines_joinLines : ∀ ls : List (List Char), ls ≠ [] →
    (∀ l ∈ ls, '\n' ∉ l) → splitLines (joinLines ls) = ls
  | [], h, _ => absurd rfl h
  | [l], _, hnl => by
    simp only [joinLines]
    exact splitLines_of_no_newline (hnl l (List.mem_singleton.mpr rfl))
  | l :: l2 :: ls, _, hnl => by
    simp only [joinLines]
    rw [splitLines_append_newline _ (hnl l (List.mem_cons_self _ _))]
    rw [splitLines_joinLines (l2 :: ls) (by simp)
      (fun x hx => hnl x (List.mem_cons_of_mem _ hx))]

theorem findClassLine_eq_none {needle : List Char} {ls : List (List Char)}
    (h : ∀ l ∈ ls, containsSub needle l = false) :
    findClassLine needle ls = none := by
  induction ls with
  | nil => rfl
  | cons l ls ih =>
    simp only [findClassLine]
    rw [if_neg (by simp [h l (List.mem_cons_self _ _)]),
      ih (fun x hx => h x (List.mem_cons_of_mem _ hx))]

theorem findClassLine_contains {needle cl : List Char} {rest ls : List (List Char)}
    (h : findClassLine needle ls = some (cl, rest)) :
    containsSub needle cl = true := by
  induction ls with
  | nil => simp [findClassLine] at h
  | cons l ls ih =>
    simp only [findClassLine] at h
    split at h
    · cases h
      assumption
    · exact ih h

theorem findClassLine_mem {needle cl : List Char} {rest ls : List (List Char)}
    (h : findClassLine needle ls = some (cl, rest)) :
    ∀ x, x = cl ∨ x ∈ rest → x ∈ ls := by
  induction ls with
  | nil => simp [findClassLine] at h
  | cons l ls ih =>
    intro x hx
    simp only [findClassLine] at h
    split at h
    · cases h
      rcases hx with h1 | h2
      · exact h1 ▸ List.mem_cons_self _ _
      · exact List.mem_cons_of_mem _ h2
    · exact List.mem_cons_of_mem _ (ih h x hx)

theorem mem_collectBody {d : Nat} {ls : List (List Char)} {l : List Char}
    (h : l ∈ collectBody d ls) :
    l ∈ ls ∧ ¬(isBlank l = false ∧ indentOf l ≤ d) := by
  induction ls with
  | nil => simp [collectBody] at h
  | cons l0 ls ih =>
    simp only [collectBody] at h
    split at h
    · simp at h
    · rcases List.mem_cons.mp h with h1 | h2
      · subst h1
        exact ⟨List.mem_cons_self _ _, by assumption⟩
      · obtain ⟨hm, hp⟩ := ih h2
        exact ⟨List.mem_cons_of_mem _ hm, hp⟩

theorem collectBody_all {d : Nat} {ls : List (List Char)}
    (h : ∀ l ∈ ls, ¬(isBlank l = false ∧ indentOf l ≤ d)) :
    collectBody d ls = ls := by
  induction ls with
  | nil => rfl
  | cons l0 ls ih =>
    simp only [collectBody]
    rw [if_neg (h l0 (List.mem_cons_self _ _)),
      ih (fun l hl => h l (List.mem_cons_of_mem _ hl))]

/-- C5: `extract_class_definition` is idempotent in its first argument —
for every source text `s` and construct name `n`, re-extracting from its own
output with the same construct name returns that output unchanged. -/
theorem extract_class_definition_idempotent (s n : List Char) :
    (extract_class_definition (extract_class_definition s n).1 n).1 =
      (extract_class_definition s n).1 := by
  cases h : findClassLine (lc "class " ++ n) (splitLines s) with
  | none =>
    have h1 : (extract_class_definition s n).1 = s := by
      simp [extract_class_definition, h]
    rw [h1]
    exact h1
  | some p =>
    obtain ⟨cl, rest⟩ := p
    have hcont := findClassLine_contains h
    have hmem := findClassLine_mem h
    have h1 : (extract_class_definition s n).1 =
        joinLines (cl :: collectBody (indentOf cl) rest) := by
      simp [extract_class_definition, h]
    rw [h1]
    have hnl : ∀ l ∈ cl :: collectBody (indentOf cl) rest, '\n' ∉ l := by
      intro l hl
      rcases List.mem_cons.mp hl with h2 | h3
      · exact mem_splitLines_no_newline (hmem l (Or.inl h2))
      · exact mem_splitLines_no_newline (hmem l (Or.inr (mem_collectBody h3).1))
    have hsplit : splitLines (joinLines (cl :: collectBody (indentOf cl) rest)) =
        cl :: collectBody (indentOf cl) rest :=
      splitLines_joinLines _ (by simp) hnl
    have hfind : findClassLine (lc "class " ++ n)
        (cl :: collectBody (indentOf cl) rest) =
        some (cl, collectBody (indentOf cl) rest) := by
      simp [findClassLine, hcont]
    have hcoll : collectBody (indentOf cl) (collectBody (indentOf cl) rest) =
        collectBody (indentOf cl) rest :=
      collectBody_all (fun l hl => (mem_collectBody hl).2)
    simp [extract_class_definition, hsplit, hfind, hcoll]

/-- C7: when no line of the source contains the substring
`"class " + construct_name`, `extract_class_definition` returns the original
text exactly unchanged and signals not-found only by a logged warning. -/
theorem extract_class_definition_not_found (s n : List Char)
    (h : ∀ l ∈ splitLines s, containsSub (lc "class " ++ n) l = false) :
    extract_class_definition s n = (s, [LogEvent.warnClassNotFound n]) := by
  simp [extract_class_definition, findClassLine_eq_none h]

/-- C7 witness: a concrete text with no `class Foo` line is returned
unchanged with the not-found warning. -/
theorem extract_class_definition_not_found_witness :
    extract_class_definition (lc "x = 1\ny = 2") (lc "Foo") =
      (lc "x = 1\ny = 2", [LogEvent.warnClassNotFound (lc "Foo")]) :=
  extract_class_definition_not_found _ _ (by decide)

/-- C2 counterexample: on the scenario input the extractor's output is the
class line, the four indented lines AND the following blank line (the blank
line is appended before the loop breaks), so the output is not exactly the
class line plus the four indented lines. -/
theorem extract_retry_policy_counterexample :
    ¬ ((extract_class_definition
        (lc "class RetryPolicy:\n    a = 1\n    b = 2\n    c = 3\n    d = 4\n\nx = 1")
        (lc "RetryPolicy")).1 =
      lc "class RetryPolicy:\n    a = 1\n    b = 2\n    c = 3\n    d = 4") := by
  decide

/-- C2 (amended): for every source text whose lines are a line containing
`class RetryPolicy:` at indentation 0, four indented non-blank lines, a blank
line, and then non-blank top-level code, `extract_class_definition` with
construct name `RetryPolicy` returns the class line, the four indented lines
and the trailing blank line, excluding the unrelated top-level code. -/
theorem extract_retry_policy_block (s hl l1 l2 l3 l4 r : List Char)
    (rs : List (List Char))
    (hsplit : splitLines s = [hl, l1, l2, l3, l4, [], r] ++ rs)
    (hh : containsSub (lc "class RetryPolicy:") hl = true)
    (hind : indentOf hl = 0)
    (hbody : ∀ l ∈ [l1, l2, l3, l4], isBlank l = false ∧ 1 ≤ indentOf l)
    (hr : isBlank r = false) (hrind : indentOf r = 0) :
    (extract_class_definition s (lc "RetryPolicy")).1 =
      joinLines [hl, l1, l2, l3, l4, []] := by
  have hneedle : containsSub (lc "class " ++ lc "RetryPolicy") hl = true := by
    have heq : lc "class RetryPolicy:" =
        (lc "class " ++ lc "RetryPolicy") ++ lc ":" := by decide
    exact containsSub_append_left (heq ▸ hh)
  have hc1 : ¬(isBlank l1 = false ∧ indentOf l1 ≤ 0) := fun ⟨_, hle⟩ => by
    have := (hbody l1 (by simp)).2; omega
  have hc2 : ¬(isBlank l2 = false ∧ indentOf l2 ≤ 0) := fun ⟨_, hle⟩ => by
    have := (hbody l2 (by simp)).2; omega
  have hc3 : ¬(isBlank l3 = false ∧ indentOf l3 ≤ 0) := fun ⟨_, hle⟩ => by
    have := (hbody l3 (by simp)).2; omega
  have hc4 : ¬(isBlank l4 = false ∧ indentOf l4 ≤ 0) := fun ⟨_, hle⟩ => by
    have := (hbody l4 (by simp)).2; omega
  have hcb : ¬(isBlank ([] : List Char) = false ∧ indentOf [] ≤ 0) :=
    fun ⟨hb, _⟩ => by simp [isBlank] at hb
  have hcr : isBlank r = false ∧ indentOf r ≤ 0 := ⟨hr, by omega⟩
  simp only [extract_class_definition, hsplit, List.cons_append, List.nil_append,
    findClassLine, if_pos hneedle, hind, collectBody, if_neg hc1, if_neg hc2,
    if_neg hc3, if_neg hc4, if_neg hcb, if_pos hcr, joinLines]

/-- C2 witness: the amended statement applied to the concrete scenario
source. -/
theorem extract_retry_policy_block_witness :
    (extract_class_definition
        (lc "class RetryPolicy:\n    a = 1\n    b = 2\n    c = 3\n    d = 4\n\nx = 1")
        (lc "RetryPolicy")).1 =
      joinLines [lc "class RetryPolicy:", lc "    a = 1", lc "    b = 2",
        lc "    c = 3", lc "    d = 4", []] :=
  extract_retry_policy_block _ (lc "class RetryPolicy:") (lc "    a = 1")
    (lc "    b = 2") (lc "    c = 3") (lc "    d = 4") (lc "x = 1") []
    (by decide) (by decide) (by decide) (by decide) (by decide) (by decide)

/-- C1 counterexample: for the query `what does memory do` the intent
extractor does NOT return the no-construct result: the cue pattern
`what does (\w+) do` matches the lowercase token `memory` before the
capitalized-word fallback is ever consulted. -/
theorem extract_class_name_memory_counterexample :
    ¬ (extract_class_name_from_query (lc "what does memory do") = none) := by
  decide

/-- C1 (amended): for the query `what does memory do` the cue-phrase pattern
`what does (\w+) do` (case-insensitive, accepting lowercase identifiers)
matches, so `extract_class_name_from_query` returns `Memory`; the
no-construct result (`None`, caller falls back to the top-ranked unit) is
produced only when no cue pattern matches and no non-stop-word capitalized
token exists, as for `tell me about memory`. -/
theorem extract_class_name_memory_query :
    extract_class_name_from_query (lc "what does memory do") = some (lc "Memory") ∧
    extract_class_name_from_query (lc "tell me about memory") = none := by
  decide

/-- C9: whenever one of the fixed-priority cue-phrase patterns matches, the
extractor returns the first captured identifier normalized by Python
`str.capitalize` — first letter upper-cased, the rest lower-cased (not the
capture's original casing). -/
theorem extract_class_name_capitalizes (q w : List Char)
    (h : findSomePattern patternList q = some w) :
    extract_class_name_from_query q = some (pyCapitalize w) := by
  simp [extract_class_name_from_query, h]

/-- C9 witness: the pattern `explain (\w+)` matches `explain nginxProxy` with
capture `nginxProxy`, and the returned name is its capitalization. -/
theorem extract_class_name_capitalizes_witness :
    findSomePattern patternList (lc "explain nginxProxy") = some (lc "nginxProxy") ∧
    extract_class_name_from_query (lc "explain nginxProxy") =
      some (pyCapitalize (lc "nginxProxy")) :=
  ⟨by decide, extract_class_name_capitalizes _ _ (by decide)⟩

/-- C8: every document produced by `documents_to_adal_documents` has
`is_implementation = false` whenever `is_code = false`, and every code file
whose relative path starts with `test_` or contains `test` case-insensitively
has `is_implementation = false`. -/
theorem documents_flags_invariant (glob : List Char → List SrcFile)
    (d : AdalDocument) (hd : d ∈ documents_to_adal_documents glob) :
    (d.is_code = false → d.is_implementation = false) ∧
    (d.is_code = true →
      startsWithL (lc "test_") d.file_path = true ∨
        containsSub (lc "test") (toLowerL d.file_path) = true →
      d.is_implementation = false) := by
  have key : ∀ (isCodePass : Bool) (ext : List Char) (files : List SrcFile),
      d ∈ processFiles isCodePass ext files →
      (d.is_code = false → d.is_implementation = false) ∧
      (d.is_code = true →
        startsWithL (lc "test_") d.file_path = true ∨
          containsSub (lc "test") (toLowerL d.file_path) = true →
        d.is_implementation = false) := by
    intro isCodePass ext files hmem
    obtain ⟨f, hf, heq⟩ := List.mem_filterMap.mp hmem
    split at heq
    · exact absurd heq (by simp)
    · split at heq
      · exact absurd heq (by simp)
      · split at heq
        · cases heq
          refine ⟨by simp, ?_⟩
          intro _ hpath
          rcases hpath with hp | hp <;> simp_all
        · cases heq
          exact ⟨fun _ => rfl, fun hcode => absurd hcode (by simp)⟩
  rcases List.mem_append.mp hd with hmem | hmem
  · obtain ⟨ext, _, hmem⟩ := List.mem_flatMap.mp hmem
    exact key true ext (glob ext) hmem
  · obtain ⟨ext, _, hmem⟩ := List.mem_flatMap.mp hmem
    exact key false ext (glob ext) hmem

/-- C8 witness: a one-file filesystem whose only file is `test_a.py`; the
produced document is a code document with `is_implementation = false`. -/
theorem documents_flags_invariant_witness :
    (⟨lc "pass", lc "test_a.py", lc "py", true, false, lc "test_a.py"⟩ :
        AdalDocument) ∈
      documents_to_adal_documents (fun ext =>
        if ext = lc ".py" then
          [⟨lc "/repo/test_a.py", lc "test_a.py", some (lc "pass")⟩]
        else []) ∧
    (⟨lc "pass", lc "test_a.py", lc "py", true, false, lc "test_a.py"⟩ :
        AdalDocument).is_implementation = false :=
  ⟨by decide,
    (documents_flags_invariant
        (fun ext =>
          if ext = lc ".py" then
            [⟨lc "/repo/test_a.py", lc "test_a.py", some (lc "pass")⟩]
          else [])
        ⟨lc "pass", lc "test_a.py", lc "py", true, false, lc "test_a.py"⟩
        (by decide)).2 rfl (Or.inl (by decide))⟩

/-- C10: `download_github_repo` never lets an exception escape — for every
outcome of the git-version check, the directory creation and the clone, the
wrapper returns a string (the clone output or an error message), never an
exception. -/
theorem download_github_repo_never_raises (gitVersion makedirs : Except PyExc Unit)
    (clone : Except PyExc (List Char)) :
    ∃ s : List Char,
      download_github_repo gitVersion makedirs clone = Except.ok s := by
  cases hb : download_github_repo_body gitVersion makedirs clone with
  | ok out => exact ⟨out, by simp [download_github_repo, hb]⟩
  | error e =>
    cases e with
    | calledProcessError stderr =>
      exact ⟨lc "Error during cloning: " ++ stderr,
        by simp [download_github_repo, hb]⟩
    | other msg =>
      exact ⟨lc "An unexpected error occurred: " ++ msg,
        by simp [download_github_repo, hb]⟩

/-- C3: in `transform_documents_and_save`, if registering the transformer,
loading the documents or transforming them fails, the exception is surfaced
to the caller and the cache file at `db_file_path` is untouched; the state is
persisted only when all of them succeeded in full. -/
theorem transform_documents_and_save_no_partial (ok : StepId → Bool)
    (pipe : List AdalDocument → List AdalDocument)
    (documents : List AdalDocument) (db : LocalDBState) (w : World)
    (h : ¬(ok .registerStep = true ∧ ok .loadStep = true ∧
      ok .transformStep = true)) :
    (transform_documents_and_save ok pipe documents db w).2.2 ≠ none ∧
    (transform_documents_and_save ok pipe documents db w).2.1 = w := by
  cases hr : ok .registerStep with
  | false => simp [transform_documents_and_save, hr]
  | true =>
    cases hl : ok .loadStep with
    | false => simp [transform_documents_and_save, hr, hl]
    | true =>
      cases ht : ok .transformStep with
      | false => simp [transform_documents_and_save, hr, hl, ht]
      | true => exact absurd ⟨hr, hl, ht⟩ h

/-- C3 witness: when the transform step fails, the run surfaces the failure
and the (initially empty) cache location stays empty. -/
theorem transform_documents_and_save_no_partial_witness :
    (transform_documents_and_save (fun s => s ≠ .transformStep) id []
        freshLocalDB ⟨none⟩).2.2 ≠ none ∧
    (transform_documents_and_save (fun s => s ≠ .transformStep) id []
        freshLocalDB ⟨none⟩).2.1 = ⟨none⟩ :=
  transform_documents_and_save_no_partial _ id [] freshLocalDB ⟨none⟩ (by decide)

/-- C4: whatever the state of the cache file, `load_or_create_db` does not
raise: when the file exists but its content fails to load it logs a warning,
creates a fresh empty database and returns `true`; when the file is absent it
creates a fresh database and returns `true`. -/
theorem load_or_create_db_recovers (w : World) :
    (w.cacheFile = some CacheContent.corrupt →
      load_or_create_db w =
        { db := freshLocalDB, needs_rebuild := true,
          actions := [.loadAction, .createAction],
          logs := [LogEvent.warnLoadFailed] }) ∧
    (w.cacheFile = none →
      load_or_create_db w =
        { db := freshLocalDB, needs_rebuild := true,
          actions := [.createAction], logs := [LogEvent.infoDbNotFound] }) := by
  constructor
  · intro h
    simp [load_or_create_db, load_database, h]
  · intro h
    simp [load_or_create_db, h]

/-- C4 witness: the corrupt-cache world and the missing-cache world both
rebuild. -/
theorem load_or_create_db_recovers_witness :
    load_or_create_db ⟨some CacheContent.corrupt⟩ =
      { db := freshLocalDB, needs_rebuild := true,
        actions := [.loadAction, .createAction],
        logs := [LogEvent.warnLoadFailed] } ∧
    load_or_create_db ⟨none⟩ =
      { db := freshLocalDB, needs_rebuild := true,
        actions := [.createAction], logs := [LogEvent.infoDbNotFound] } :=
  ⟨(load_or_create_db_recovers ⟨some CacheContent.corrupt⟩).1 rfl,
    (load_or_create_db_recovers ⟨none⟩).2 rfl⟩

/-- C6: after a successful `transform_documents_and_save`, a subsequent
`load_or_create_db` on the resulting filesystem loads the persisted database
and returns `needs_rebuild = false`, and it performs no transform action. -/
theorem cache_round_trip (ok : StepId → Bool)
    (pipe : List AdalDocument → List AdalDocument)
    (documents : List AdalDocument) (db : LocalDBState) (w : World)
    (h : (transform_documents_and_save ok pipe documents db w).2.2 = none) :
    load_or_create_db (transform_documents_and_save ok pipe documents db w).2.1 =
      { db := (transform_documents_and_save ok pipe documents db w).1,
        needs_rebuild := false, actions := [DbAction.loadAction],
        logs := [LogEvent.infoDbLoaded] } ∧
    DbAction.transformAction ∉
      (load_or_create_db
        (transform_documents_and_save ok pipe documents db w).2.1).actions := by
  cases hr : ok .registerStep with
  | false => simp [transform_documents_and_save, hr] at h
  | true =>
    cases hl : ok .loadStep with
    | false => simp [transform_documents_and_save, hr, hl] at h
    | true =>
      cases ht : ok .transformStep with
      | false => simp [transform_documents_and_save, hr, hl, ht] at h
      | true =>
        cases hs : ok .saveStep with
        | false => simp [transform_documents_and_save, hr, hl, ht, hs] at h
        | true =>
          constructor
          · simp [transform_documents_and_save, hr, hl, ht, hs,
              load_or_create_db, load_database]
          · simp [transform_documents_and_save, hr, hl, ht, hs,
              load_or_create_db, load_database]

/-- C6 witness: a fully successful commit of an empty unit list followed by a
reload. -/
theorem cache_round_trip_witness :
    load_or_create_db
        (transform_documents_and_save (fun _ => true) id [] freshLocalDB
          ⟨none⟩).2.1 =
      { db := (transform_documents_and_save (fun _ => true) id [] freshLocalDB
          ⟨none⟩).1,
        needs_rebuild := false, actions := [DbAction.loadAction],
        logs := [LogEvent.infoDbLoaded] } ∧
    DbAction.transformAction ∉
      (load_or_create_db
        (transform_documents_and_save (fun _ => true) id [] freshLocalDB
          ⟨none⟩).2.1).actions :=
  cache_round_trip (fun _ => true) id [] freshLocalDB ⟨none⟩ (by decide)

end GithubChat
